import Mathlib

/-!
Shallow embedding of the interface-identity translation layer of
`show/main.py` (SONiC `show` CLI): the `InterfaceAliasConverter` codec,
the naming-mode selector, the streaming output rewriter
(`run_command_in_alias_mode` / `print_output_in_alias_mode`) and the BGP
neighbor identity resolver (`get_bgp_neighbor_ip_to_name` and friends).

Python dictionaries are modelled as association lists (`List (String × V)`)
iterated in insertion order; a Python dict never holds a duplicate key, so
theorems that depend on it carry a `Nodup` hypothesis on the key list.
Fallible Python code (KeyError / IndexError / AttributeError / ValueError)
is modelled with `Except PyErr`.  Python strings are Lean `String`s,
manipulated through their `data : List Char` field so that every
definition is structurally recursive and evaluates inside the kernel.
-/

/-- The Python exceptions that the embedded code can raise. -/
inductive PyErr where
  | keyError
  | indexError
  | attributeError
  | valueError
  deriving DecidableEq, Repr

/-- A Python dict with string keys and string values (one DB record:
field name to field value). -/
abbrev PyDict := List (String × String)

/-- `d[k]` on a Python dict: the value of the first (only) matching key,
`KeyError` if absent. -/
def dictGet (d : PyDict) (k : String) : Except PyErr String :=
  match d.lookup k with
  | some v => .ok v
  | none => .error .keyError

/-- Strip a prefix from a character list: `some rest` when `p` is a prefix
(`l = p ++ rest`), else `none`. -/
def dropPrefixCL : List Char → List Char → Option (List Char)
  | [], l => some l
  | _ :: _, [] => none
  | p :: ps, c :: cs => if p = c then dropPrefixCL ps cs else none

/-- Python `s.startswith(p)`. -/
def pyStartsWith (s p : String) : Bool :=
  (dropPrefixCL p.data s.data).isSome

/-- Split a character list at the first `'.'`:
`interface_name.find('.')` plus the two slices `[:idx]` / `[idx+1:]` of
the source, fused into one operation.  `none` when there is no dot
(Python `find` returns `-1`). -/
def splitAtDot : List Char → Option (List Char × List Char)
  | [] => none
  | c :: rest =>
    if c = '.' then some ([], rest)
    else
      match splitAtDot rest with
      | some (p, v) => some (c :: p, v)
      | none => none

/-!
## Identifier codec (`InterfaceAliasConverter`)
-/

/-- `InterfaceAliasConverter.name_to_alias`: split on the first `.`
(`VLAN_SUB_INTERFACE_SEPARATOR`), look the (possibly split) prefix up
among the canonical port names, return that record's `alias` field
(raising `KeyError` when the matched record has none), re-appending the
VLAN suffix; an unmatched prefix falls back to the input.  `None` input
skips everything and is returned as-is. -/
def name_to_alias (port_dict : List (String × PyDict)) :
    Option String → Except PyErr (Option String)
  | none => .ok none
  | some name =>
    match splitAtDot name.data with
    | none =>
      match List.lookup name port_dict with
      | some r =>
        match dictGet r "alias" with
        | .ok a => .ok (some a)
        | .error e => .error e
      | none => .ok (some name)
    | some (p, v) =>
      let parent : String := ⟨p⟩
      let vlan_id : String := ⟨v⟩
      match List.lookup parent port_dict with
      | some r =>
        match dictGet r "alias" with
        | .ok a => .ok (some (a ++ "." ++ vlan_id))
        | .error e => .error e
      | none => .ok (some (parent ++ "." ++ vlan_id))

/-- The scan of `alias_to_name`: walk the port records in order comparing
the target with each record's `alias` field (a record without the field
raises `KeyError` the moment it is inspected, exactly as
`self.port_dict[port_name]['alias']` does); the first hit returns the
canonical port name. -/
def aliasScan : List (String × PyDict) → String → Except PyErr (Option String)
  | [], _ => .ok none
  | (pn, r) :: rest, target =>
    match dictGet r "alias" with
    | .error e => .error e
    | .ok a => if target = a then .ok (some pn) else aliasScan rest target

/-- `InterfaceAliasConverter.alias_to_name`: symmetric to
`name_to_alias`, matching the split prefix against every record's alias
instead of the canonical key. -/
def alias_to_name (port_dict : List (String × PyDict)) :
    Option String → Except PyErr (Option String)
  | none => .ok none
  | some al =>
    match splitAtDot al.data with
    | none =>
      match aliasScan port_dict al with
      | .ok (some pn) => .ok (some pn)
      | .ok none => .ok (some al)
      | .error e => .error e
    | some (p, v) =>
      let parent : String := ⟨p⟩
      let vlan_id : String := ⟨v⟩
      match aliasScan port_dict parent with
      | .ok (some pn) => .ok (some (pn ++ "." ++ vlan_id))
      | .ok none => .ok (some (parent ++ "." ++ vlan_id))
      | .error e => .error e

/-- `name_to_alias` restricted to a present string argument, as the
rewriter calls it (`iface_alias_converter.name_to_alias(port_name)`).
A `some` input can never produce `.ok none`, so the middle arm is dead. -/
def name_to_alias_str (port_dict : List (String × PyDict)) (s : String) :
    Except PyErr String :=
  match name_to_alias port_dict (some s) with
  | .ok (some r) => .ok r
  | .ok none => .ok s
  | .error e => .error e

/-- The `alias_max_length` loop of `InterfaceAliasConverter.__init__`:
running maximum of the alias lengths; a record without an `alias` field
raises `KeyError`, which the `except KeyError: break` clause turns into
stopping the scan. -/
def compute_alias_max_length : List (String × PyDict) → Nat → Nat
  | [], acc => acc
  | (_, r) :: rest, acc =>
    match r.lookup "alias" with
    | none => acc
    | some a => compute_alias_max_length rest (if acc < a.length then a.length else acc)

/-- What the specification says `max_alias_width` is: the maximum length
over the alias fields of all records that have one (0 if none).  Stated
from the spec's words, to be compared with `compute_alias_max_length`. -/
def spec_alias_max (port_dict : List (String × PyDict)) : Nat :=
  (port_dict.filterMap (fun pr => pr.2.lookup "alias")).foldl
    (fun m a => max m a.length) 0

/-!
## Naming-mode selector
-/

/-- `get_interface_mode`: read `SONIC_CLI_IFACE_MODE` (modelled as the
`Option String` argument); `None` becomes `"default"`, any present value
is returned as-is. -/
def get_interface_mode (env : Option String) : String :=
  match env with
  | none => "default"
  | some m => m

/-!
## BGP neighbor identity resolver
-/

/-- Digits-only decimal parse (nonempty), as `int(...)` inside the
`ipaddress` parsers uses it. -/
def parseDecNat (l : List Char) : Option Nat :=
  if l = [] then none
  else
    l.foldl
      (fun acc c =>
        match acc with
        | some a => if c.isDigit then some (a * 10 + (c.toNat - '0'.toNat)) else none
        | none => none)
      (some 0)

/-- Split a character list on every occurrence of `c0` (Python
`str.split(c0)`, keeping empty pieces). -/
def splitOnChar (c0 : Char) : List Char → List (List Char)
  | [] => [[]]
  | c :: rest =>
    let r := splitOnChar c0 rest
    if c = c0 then [] :: r
    else
      match r with
      | h :: t => (c :: h) :: t
      | [] => [[c]]

/-- `ipaddress.IPv4Address` parse: dotted quad, each octet 0-255, to the
32-bit value.  (Octet syntax niceties such as rejecting leading zeros
are not modelled.) -/
def ipv4AddrNat (s : String) : Option Nat :=
  match (splitOnChar '.' s.data).mapM parseDecNat with
  | some [a, b, c, d] =>
    if a ≤ 255 ∧ b ≤ 255 ∧ c ≤ 255 ∧ d ≤ 255 then
      some (((a * 256 + b) * 256 + c) * 256 + d)
    else none
  | _ => none

/-- `ipaddress.IPv4Network` parse (strict, the default): network value
and prefix length; an unparseable address, a prefix above 32 or set host
bits raise `ValueError`. -/
def ipv4NetworkParse (s : String) : Except PyErr (Nat × Nat) :=
  match splitOnChar '/' s.data with
  | [a] =>
    match ipv4AddrNat ⟨a⟩ with
    | some n => .ok (n, 32)
    | none => .error .valueError
  | [a, p] =>
    match parseDecNat p with
    | some pl =>
      if pl ≤ 32 then
        match ipv4AddrNat ⟨a⟩ with
        | some n =>
          if n % 2 ^ (32 - pl) = 0 then .ok (n, pl) else .error .valueError
        | none => .error .valueError
      else .error .valueError
    | none => .error .valueError
  | _ => .error .valueError

/-- `ipaddress.IPv4Address(ip) in ipaddress.IPv4Network(subnet)`:
membership by comparing the bits above the host part.  Parse failures
propagate as `ValueError` (uncaught at this point of the source). -/
def ipv4InNetwork (ip subnet : String) : Except PyErr Bool :=
  match ipv4AddrNat ip with
  | none => .error .valueError
  | some a =>
    match ipv4NetworkParse subnet with
    | .error e => .error e
    | .ok (n, pl) => .ok (decide (a / 2 ^ (32 - pl) = n / 2 ^ (32 - pl)))

/-- Value of one hexadecimal digit. -/
def hexVal (c : Char) : Option Nat :=
  if '0' ≤ c ∧ c ≤ '9' then some (c.toNat - '0'.toNat)
  else if 'a' ≤ c ∧ c ≤ 'f' then some (c.toNat - 'a'.toNat + 10)
  else if 'A' ≤ c ∧ c ≤ 'F' then some (c.toNat - 'A'.toNat + 10)
  else none

/-- One IPv6 group: 1 to 4 hex digits. -/
def parseHexGroup (l : List Char) : Option Nat :=
  if 1 ≤ l.length ∧ l.length ≤ 4 then
    l.foldl
      (fun acc c =>
        match acc, hexVal c with
        | some a, some v => some (a * 16 + v)
        | _, _ => none)
      (some 0)
  else none

/-- Split at the first `"::"` of an IPv6 literal. -/
def splitDoubleColon : List Char → Option (List Char × List Char)
  | ':' :: ':' :: rest => some ([], rest)
  | c :: rest => (splitDoubleColon rest).map (fun pr => (c :: pr.1, pr.2))
  | [] => none

/-- Fold 16-bit groups into one number. -/
def groupsToNat (gs : List Nat) : Nat :=
  gs.foldl (fun acc g => acc * 65536 + g) 0

/-- `ipaddress.IPv6Address` parse to the 128-bit value: eight hex groups,
or a single `::` filling in zero groups.  (The embedded-IPv4 tail form is
not modelled.) -/
def ipv6AddrNat (s : String) : Option Nat :=
  match splitDoubleColon s.data with
  | some (left, right) =>
    if (splitDoubleColon right).isSome then none
    else
      match
        (if left = [] then some [] else (splitOnChar ':' left).mapM parseHexGroup),
        (if right = [] then some [] else (splitOnChar ':' right).mapM parseHexGroup) with
      | some lg, some rg =>
        if lg.length + rg.length ≤ 7 then
          some (groupsToNat (lg ++ List.replicate (8 - lg.length - rg.length) 0 ++ rg))
        else none
      | _, _ => none
  | none =>
    match (splitOnChar ':' s.data).mapM parseHexGroup with
    | some gs => if gs.length = 8 then some (groupsToNat gs) else none
    | none => none

/-- `ipaddress.IPv6Network` parse (strict), as for IPv4. -/
def ipv6NetworkParse (s : String) : Except PyErr (Nat × Nat) :=
  match splitOnChar '/' s.data with
  | [a] =>
    match ipv6AddrNat ⟨a⟩ with
    | some n => .ok (n, 128)
    | none => .error .valueError
  | [a, p] =>
    match parseDecNat p with
    | some pl =>
      if pl ≤ 128 then
        match ipv6AddrNat ⟨a⟩ with
        | some n =>
          if n % 2 ^ (128 - pl) = 0 then .ok (n, pl) else .error .valueError
        | none => .error .valueError
      else .error .valueError
    | none => .error .valueError
  | _ => .error .valueError

/-- `ipaddress.IPv6Address(ip) in ipaddress.IPv6Network(subnet)`. -/
def ipv6InNetwork (ip subnet : String) : Except PyErr Bool :=
  match ipv6AddrNat ip with
  | none => .error .valueError
  | some a =>
    match ipv6NetworkParse subnet with
    | .error e => .error e
    | .ok (n, pl) => .ok (decide (a / 2 ^ (128 - pl) = n / 2 ^ (128 - pl)))

/-- `is_ipv4_address(ipaddress)`: the parameter named `ipaddress` shadows
the `ipaddress` module, so the body's `ipaddress.IPv4Address(ipaddress)`
is an attribute access on the string argument and raises
`AttributeError`; evaluating the `except ipaddress.AddressValueError`
clause is again an attribute access on the string, so the handler
re-raises `AttributeError` instead of catching anything.  For every
string argument (and the call sites always pass `unicode(...)` strings)
the function therefore raises, despite its docstring promising a bool. -/
def is_ipv4_address (_s : String) : Except PyErr Bool :=
  .error .attributeError

/-- `is_ipv6_address(ipaddress)`: same module-shadowing slip as
`is_ipv4_address`, raises `AttributeError` on every string argument. -/
def is_ipv6_address (_s : String) : Except PyErr Bool :=
  .error .attributeError

/-- The `dynamic_neighbors` dict: `{"v4": ..., "v6": ...}` of
CIDR-string to neighbor-name maps. -/
structure DynNeighbors where
  v4 : List (String × String)
  v6 : List (String × String)
  deriving Repr

/-- The `for subnet in dynamic_neighbors["v4"].keys()` loop of
`get_bgp_neighbor_ip_to_name`: first containing subnet wins; falling off
the loop lets the function end and return `None`.  (Unreachable in
practice: the guarding `is_ipv4_address` call always raises first.) -/
def scanSubnets4 : List (String × String) → String → Except PyErr (Option String)
  | [], _ => .ok none
  | (subnet, nm) :: rest, ip =>
    match ipv4InNetwork ip subnet with
    | .error e => .error e
    | .ok true => .ok (some nm)
    | .ok false => scanSubnets4 rest ip

/-- The IPv6 twin of `scanSubnets4` (equally unreachable). -/
def scanSubnets6 : List (String × String) → String → Except PyErr (Option String)
  | [], _ => .ok none
  | (subnet, nm) :: rest, ip =>
    match ipv6InNetwork ip subnet with
    | .error e => .error e
    | .ok true => .ok (some nm)
    | .ok false => scanSubnets6 rest ip

/-- `get_bgp_neighbor_ip_to_name(ip, static_neighbors, dynamic_neighbors)`:
exact static lookup first; otherwise branch on the address family via
`is_ipv4_address` / `is_ipv6_address` (which, see above, always raise for
string input); a family match scans the matching dynamic map first-match;
only when both family tests return `False` does the `else` arm return
`"NotAvailable"`.  `.ok none` models Python falling off the function
(returning `None`). -/
def get_bgp_neighbor_ip_to_name (ip : String)
    (static_neighbors : List (String × String))
    (dynamic_neighbors : DynNeighbors) : Except PyErr (Option String) :=
  match List.lookup ip static_neighbors with
  | some nm => .ok (some nm)
  | none =>
    match is_ipv4_address ip with
    | .error e => .error e
    | .ok true => scanSubnets4 dynamic_neighbors.v4 ip
    | .ok false =>
      match is_ipv6_address ip with
      | .error e => .error e
      | .ok true => scanSubnets6 dynamic_neighbors.v6 ip
      | .ok false => .ok (some "NotAvailable")

/-- `get_neighbor_dict_from_table`: every record of the table is entered
into the result keyed by its neighbor IP; the value is the record's
`name` field when present (`.get('name')` after an `in`-check), else the
string `"NotAvailable"`.  Nothing inside the `try` can raise, so the
`except: return neighbor_dict` arm is dead. -/
def get_neighbor_dict_from_table (neighbor_data : List (String × PyDict)) :
    List (String × String) :=
  neighbor_data.map
    (fun pr =>
      (pr.1,
        match pr.2.lookup "name" with
        | some v => v
        | none => "NotAvailable"))

/-!
## Streaming output rewriter: regex substitution

The two whole-line rewrite shapes of `run_command_in_alias_mode` are
`re.sub` calls whose pattern is `(^|\s)NAME(SUFFIX)` for a literal port
name `NAME` (the Ethernet-style names formatted into the pattern contain
no regex metacharacters) and replacement `\1ALIAS\2`.  `re.sub` scanning
is modelled exactly: leftmost match, `^` anchoring only at the very start
of the string, scanning resuming after the end of each match.
`\s` is modelled by `Char.isWhitespace` (space, tab, CR, LF — the ASCII
whitespace these tool outputs contain).
-/

/-- Group-2 matcher of the default pattern, regex `($|,{0,1}\s)`:
end of string, or an optional comma followed by one whitespace
character.  Returns the matched group and the remainder. -/
def sfxWord : List Char → Option (List Char × List Char)
  | [] => some ([], [])
  | c :: rest =>
    if c = ',' then
      match rest with
      | d :: rest2 => if d.isWhitespace then some ([c, d], rest2) else none
      | [] => none
    else if c.isWhitespace then some ([c], rest) else none

/-- Shared tail of the teamshow suffix: regex `(?:$|\s)` after the closing
parenthesis, the consumed whitespace belonging to group 2. -/
def sfxTeamClose (g : List Char) : List Char → Option (List Char × List Char)
  | [] => some (g, [])
  | d :: rest => if d.isWhitespace then some (g ++ [d], rest) else none

/-- Group-2 matcher of the teamshow pattern, regex
`(\([DS]\*{0,1}\)(?:$|\s))`: a parenthesized `D`/`S` with optional `*`,
then end of string or whitespace. -/
def sfxTeam : List Char → Option (List Char × List Char)
  | [] => none
  | c :: rest =>
    if c = '(' then
      match rest with
      | x :: rest1 =>
        if x = 'D' ∨ x = 'S' then
          match rest1 with
          | y :: rest2 =>
            if y = '*' then
              match rest2 with
              | z :: rest3 =>
                if z = ')' then sfxTeamClose [c, x, y, z] rest3 else none
              | [] => none
            else if y = ')' then sfxTeamClose [c, x, y] rest2 else none
          | [] => none
        else none
      | [] => none
    else none

/-- Try the pattern `\sNAME(SUFFIX)` at the current position (the `\s`
alternative of group 1). -/
def tryMatchWs (sfx : List Char → Option (List Char × List Char))
    (name : List Char) : List Char → Option (List Char × List Char × List Char)
  | [] => none
  | c :: s1 =>
    if c.isWhitespace then
      match dropPrefixCL name s1 with
      | some s2 =>
        match sfx s2 with
        | some (g2, rest) => some ([c], g2, rest)
        | none => none
      | none => none
    else none

/-- Try the whole pattern `(^|\s)NAME(SUFFIX)` at the current position:
at the start of the string the zero-width `^` alternative is tried first,
backtracking into the `\s` alternative. -/
def tryMatchAt (sfx : List Char → Option (List Char × List Char))
    (name : List Char) (atStart : Bool) (s : List Char) :
    Option (List Char × List Char × List Char) :=
  if atStart then
    match dropPrefixCL name s with
    | some s2 =>
      match sfx s2 with
      | some (g2, rest) => some ([], g2, rest)
      | none => tryMatchWs sfx name s
    | none => tryMatchWs sfx name s
  else tryMatchWs sfx name s

/-- The `re.sub` scan: at each position try the pattern; on a match emit
`\1ALIAS\2` and resume after the match, otherwise copy one character.
The fuel argument only serves structural recursion; every step consumes
at least one character (the pattern contains the nonempty literal name),
so the wrapper's `length + 1` fuel is never exhausted. -/
def reSubAux (sfx : List Char → Option (List Char × List Char))
    (name repl : List Char) : Nat → Bool → List Char → List Char
  | 0, _, s => s
  | fuel + 1, atStart, s =>
    match tryMatchAt sfx name atStart s with
    | some (g1, g2, rest) => g1 ++ repl ++ g2 ++ reSubAux sfx name repl fuel false rest
    | none =>
      match s with
      | [] => []
      | c :: rest => c :: reSubAux sfx name repl fuel false rest

/-- One default-pattern substitution pass,
`re.sub(r"(^|\s)NAME($|,{0,1}\s)", r"\1ALIAS\2", line)`. -/
def reSubWordStr (name al line : String) : String :=
  ⟨reSubAux sfxWord name.data al.data (line.data.length + 1) true line.data⟩

/-- One teamshow-pattern substitution pass,
`re.sub(r"(^|\s)NAME(\([DS]\*{0,1}\)(?:$|\s))", r"\1ALIAS\2", line)`. -/
def reSubTeamStr (name al line : String) : String :=
  ⟨reSubAux sfxTeam name.data al.data (line.data.length + 1) true line.data⟩

/-!
## Streaming output rewriter: line handling
-/

/-- Python `str.split()` with no arguments: whitespace-run tokenizer,
dropping empty pieces.  Fuel-structural for kernel evaluation; every
step consumes at least one character. -/
def splitWsAux : Nat → List Char → List (List Char)
  | 0, _ => []
  | _ + 1, [] => []
  | fuel + 1, c :: rest =>
    if c.isWhitespace then splitWsAux fuel rest
    else
      (c :: rest.takeWhile (fun d => !d.isWhitespace)) ::
        splitWsAux fuel (rest.dropWhile (fun d => !d.isWhitespace))

/-- `output.split()`. -/
def pySplit (s : String) : List String :=
  (splitWsAux (s.data.length + 1) s.data).map (fun t => (⟨t⟩ : String))

/-- `word[index]` on a Python list: `IndexError` out of range. -/
def pyGetIdx (l : List String) (i : Nat) : Except PyErr String :=
  match l.get? i with
  | some x => .ok x
  | none => .error .indexError

/-- Python `s.lstrip()`. -/
def pyLstrip (s : String) : String :=
  ⟨s.data.dropWhile Char.isWhitespace⟩

/-- Python `s.rstrip('\n')` (what every echo applies). -/
def pyRstripNl (s : String) : String :=
  ⟨(s.data.reverse.dropWhile (fun c => c = '\n')).reverse⟩

/-- Python `s.rjust(n, c)`. -/
def pyRjust (s : String) (n : Nat) (c : Char) : String :=
  if s.length < n then ⟨List.replicate (n - s.length) c ++ s.data⟩ else s

/-- `interface_name.replace(':', '')`: for the single-character pattern
`str.replace` with empty replacement is exactly dropping every colon. -/
def stripColons (s : String) : String :=
  ⟨s.data.filter (fun c => c ≠ ':')⟩

/-- Leftmost-occurrence replacement, Python `s.replace(pat, repl, 1)`. -/
def replaceFirstCL (pat repl : List Char) : List Char → List Char
  | [] =>
    match dropPrefixCL pat [] with
    | some r2 => repl ++ r2
    | none => []
  | c :: rest =>
    match dropPrefixCL pat (c :: rest) with
    | some r2 => repl ++ r2
    | none => c :: replaceFirstCL pat repl rest

/-- `output.replace(interface_name, alias_name, 1)`. -/
def strReplaceFirst (s pat repl : String) : String :=
  ⟨replaceFirstCL pat.data repl.data s.data⟩

/-- All-occurrence replacement, Python `s.replace(pat, repl)` (and the
metacharacter-free `re.sub('Type', ...)` of the fdbshow branch), for a
nonempty pattern.  Fuel-structural; every step consumes at least one
character, so the wrapper's fuel suffices. -/
def replaceAllAux (pat repl : List Char) : Nat → List Char → List Char
  | 0, s => s
  | _ + 1, [] => []
  | fuel + 1, c :: rest =>
    match dropPrefixCL pat (c :: rest) with
    | some r2 =>
      if pat.isEmpty then c :: replaceAllAux pat repl fuel rest
      else repl ++ replaceAllAux pat repl fuel r2
    | none => c :: replaceAllAux pat repl fuel rest

/-- `output.replace(pat, repl)`. -/
def strReplaceAll (s pat repl : String) : String :=
  ⟨replaceAllAux pat.data repl.data (s.data.length + 1) s.data⟩

/-- Substring test, Python `pat in s`. -/
def occursCL (pat : List Char) : List Char → Bool
  | [] => (dropPrefixCL pat []).isSome
  | c :: rest => (dropPrefixCL pat (c :: rest)).isSome || occursCL pat rest

/-- The `for port_name in natsorted(...)` scan of
`print_output_in_alias_mode`: equality comparison against every key,
the last hit's `['alias']` value winning (the record is only indexed, and
can only raise `KeyError`, on a hit).  Because a Python dict's keys are
distinct, at most one key can win, so iterating in directory order in
place of natsort order yields the same result. -/
def findAliasLoop : List (String × PyDict) → String → String → Except PyErr String
  | [], _, acc => .ok acc
  | (pn, r) :: rest, name, acc =>
    if name = pn then
      match dictGet r "alias" with
      | .ok a => findAliasLoop rest name a
      | .error e => .error e
    else findAliasLoop rest name acc

/-- `print_output_in_alias_mode(output, index)`: the POSITIONAL
per-token strategy.  A `---` underline row is re-padded and re-joined
first; then the whitespace token at `index` (colons stripped) is matched
by equality against the canonical names, and on a hit with a non-empty
alias the first occurrence of that token in the line is replaced by the
(right-justified) alias; the result is echoed `rstrip('\n')`-ed. -/
def print_output_in_alias_mode (port_dict : List (String × PyDict))
    (alias_max_length : Nat) (output0 : String) (index : Nat) :
    Except PyErr String :=
  let step1 : Except PyErr String :=
    if pyStartsWith output0 "---" then
      match pyGetIdx (pySplit output0) index with
      | .error e => .error e
      | .ok dword =>
        .ok (String.intercalate "  "
          ((pySplit output0).set index (pyRjust dword alias_max_length '-')))
    else .ok output0
  match step1 with
  | .error e => .error e
  | .ok output =>
    let word := pySplit output
    let nameRes : Except PyErr String :=
      if word = [] then .ok ""
      else
        match pyGetIdx word index with
        | .ok t => .ok (stripColons t)
        | .error e => .error e
    match nameRes with
    | .error e => .error e
    | .ok interface_name =>
      match findAliasLoop port_dict interface_name "" with
      | .error e => .error e
      | .ok alias_name =>
        if alias_name ≠ "" then
          let padded :=
            if alias_name.length < alias_max_length then
              pyRjust alias_name alias_max_length ' '
            else alias_name
          .ok (pyRstripNl (strReplaceFirst output interface_name padded))
        else .ok (pyRstripNl output)

/-- The `sudo teamshow` branch of `run_command_in_alias_mode`: one
teamshow-pattern substitution per known port over the raw line, then the
echo's `rstrip('\n')`. -/
def teamshow_convert_line (port_dict : List (String × PyDict)) (raw : String) :
    Except PyErr String :=
  match
    port_dict.foldlM
      (fun acc pr => do
        let al ← name_to_alias_str port_dict pr.1
        pure (reSubTeamStr pr.1 al acc))
      raw with
  | .ok conv => .ok (pyRstripNl conv)
  | .error e => .error e

/-- The default branch of `run_command_in_alias_mode`: one
default-pattern substitution per known port over the raw line, then the
echo's `rstrip('\n')`. -/
def default_convert_line (port_dict : List (String × PyDict)) (raw : String) :
    Except PyErr String :=
  match
    port_dict.foldlM
      (fun acc pr => do
        let al ← name_to_alias_str port_dict pr.1
        pure (reSubWordStr pr.1 al acc))
      raw with
  | .ok conv => .ok (pyRstripNl conv)
  | .error e => .error e

/-- The per-line body of `run_command_in_alias_mode`: dispatch on the
wrapped command string, apply the branch's header padding and strategy,
and produce the line echoed for this input line. -/
def process_line (port_dict : List (String × PyDict)) (alias_max_length : Nat)
    (command : String) (raw_output : String) : Except PyErr String :=
  let output := pyLstrip raw_output
  if pyStartsWith command "portstat" then
    let output :=
      if pyStartsWith output "IFACE" then
        strReplaceAll output "IFACE" (pyRjust "IFACE" alias_max_length ' ')
      else output
    print_output_in_alias_mode port_dict alias_max_length output 0
  else if pyStartsWith command "intfstat" then
    let output :=
      if pyStartsWith output "IFACE" then
        strReplaceAll output "IFACE" (pyRjust "IFACE" alias_max_length ' ')
      else output
    print_output_in_alias_mode port_dict alias_max_length output 0
  else if command = "pfcstat" then
    let output :=
      if pyStartsWith output "Port Tx" then
        strReplaceAll output "Port Tx" (pyRjust "Port Tx" alias_max_length ' ')
      else if pyStartsWith output "Port Rx" then
        strReplaceAll output "Port Rx" (pyRjust "Port Rx" alias_max_length ' ')
      else output
    print_output_in_alias_mode port_dict alias_max_length output 0
  else if pyStartsWith command "sudo sfputil show eeprom" then
    print_output_in_alias_mode port_dict alias_max_length raw_output 0
  else if pyStartsWith command "sudo sfputil show" then
    let output :=
      if pyStartsWith output "Port" then
        strReplaceAll output "Port" (pyRjust "Port" alias_max_length ' ')
      else output
    print_output_in_alias_mode port_dict alias_max_length output 0
  else if command = "sudo lldpshow" then
    let output :=
      if pyStartsWith output "LocalPort" then
        strReplaceAll output "LocalPort" (pyRjust "LocalPort" alias_max_length ' ')
      else output
    print_output_in_alias_mode port_dict alias_max_length output 0
  else if pyStartsWith command "queuestat" then
    let output :=
      if pyStartsWith output "Port" then
        strReplaceAll output "Port" (pyRjust "Port" alias_max_length ' ')
      else output
    print_output_in_alias_mode port_dict alias_max_length output 0
  else if command = "fdbshow" then
    let adjusted : Except PyErr String :=
      if pyStartsWith output "No." then
        .ok (strReplaceAll ("  " ++ output) "Type" "      Type")
      else
        match output.data with
        | [] => .error .indexError
        | c :: _ => .ok (if c.isDigit then "    " ++ output else output)
    match adjusted with
    | .error e => .error e
    | .ok output => print_output_in_alias_mode port_dict alias_max_length output 3
  else if pyStartsWith command "nbrshow" then
    let output :=
      if occursCL "Vlan".data output.data then strReplaceAll output "Vlan" "  Vlan"
      else output
    print_output_in_alias_mode port_dict alias_max_length output 2
  else if pyStartsWith command "sudo teamshow" then
    teamshow_convert_line port_dict raw_output
  else
    default_convert_line port_dict raw_output

/-- A wrapped subprocess at its boundary: the lines its stdout yields and
its final exit status. -/
structure Subproc where
  lines : List String
  exit_code : Int
  deriving Repr

/-- `run_command_in_alias_mode(command)`: process every (non-empty)
output line through the dispatch, then `rc = process.poll(); if rc != 0:
sys.exit(rc)`.  The second component is `some rc` when the function calls
`sys.exit(rc)` and `none` when it returns normally. -/
def run_command_in_alias_mode (port_dict : List (String × PyDict))
    (alias_max_length : Nat) (command : String) (p : Subproc) :
    Except PyErr (List String × Option Int) :=
  match (p.lines.filter (fun l => l ≠ "")).mapM
      (process_line port_dict alias_max_length command) with
  | .error e => .error e
  | .ok outs => .ok (outs, if p.exit_code ≠ 0 then some p.exit_code else none)

/-- `run_command(command)` (display/return flags omitted): in alias mode
for a non-`intfutil` command it delegates to `run_command_in_alias_mode`
and then unconditionally raises `sys.exit(0)` — so the invocation's exit
code is the rewriter's `sys.exit(rc)` when the subprocess failed, and `0`
otherwise; outside alias mode it echoes the lines itself and exits with
`rc` only when `rc != 0`. -/
def run_command (env : Option String) (port_dict : List (String × PyDict))
    (alias_max_length : Nat) (command : String) (p : Subproc) :
    Except PyErr (List String × Option Int) :=
  if get_interface_mode env = "alias" ∧ pyStartsWith command "intfutil" = false then
    match run_command_in_alias_mode port_dict alias_max_length command p with
    | .error e => .error e
    | .ok (outs, some rc) => .ok (outs, some rc)
    | .ok (outs, none) => .ok (outs, some 0)
  else
    .ok ((p.lines.filter (fun l => l ≠ "")).map pyRstripNl,
      if p.exit_code ≠ 0 then some p.exit_code else none)

/-- Check of the "a line containing only the token `NAME ++ [c0]`" shape:
at every position of the line where `name` occurs, the occurrence is
immediately followed by the character `c0`. -/
def occAllFollowedBy (name : List Char) (c0 : Char) : List Char → Bool
  | [] => true
  | c :: rest =>
    (match dropPrefixCL name (c :: rest) with
     | some tail =>
       match tail with
       | d :: _ => decide (d = c0)
       | [] => false
     | none => true) && occAllFollowedBy name c0 rest

/-!
## Helper lemmas
-/

theorem dropPrefixCL_eq_append {p l r : List Char} :
    dropPrefixCL p l = some r → l = p ++ r := by
  induction p generalizing l with
  | nil => intro h; simp [dropPrefixCL] at h; simp [h]
  | cons c cs ih =>
    intro h
    cases l with
    | nil => simp [dropPrefixCL] at h
    | cons d ds =>
      by_cases hcd : c = d
      · subst hcd
        simp [dropPrefixCL] at h
        have := ih h
        simp [this]
      · simp [dropPrefixCL, hcd] at h

theorem dropPrefixCL_append (p r : List Char) :
    dropPrefixCL p (p ++ r) = some r := by
  induction p with
  | nil => rfl
  | cons c cs ih => simp [dropPrefixCL, ih]

theorem splitAtDot_eq_append {l p v : List Char} :
    splitAtDot l = some (p, v) → l = p ++ '.' :: v := by
  induction l generalizing p with
  | nil => intro h; simp [splitAtDot] at h
  | cons c rest ih =>
    intro h
    by_cases hc : c = '.'
    · subst hc
      simp [splitAtDot] at h
      simp [h.1.symm, h.2.symm]
    · simp [splitAtDot, hc] at h
      cases hrec : splitAtDot rest with
      | none => rw [hrec] at h; simp at h
      | some pv =>
        rw [hrec] at h
        obtain ⟨p1, v1⟩ := pv
        simp at h
        obtain ⟨hp, hv⟩ := h
        subst hp; subst hv
        simp [ih hrec]

theorem strData_inj {a b : String} (h : a.data = b.data) : a = b := by
  cases a; cases b; exact congrArg String.mk h

theorem strData_append (a b : String) : (a ++ b).data = a.data ++ b.data := rfl


theorem tryMatchWs_some {sfx : List Char → Option (List Char × List Char)}
    {name s g1 g2 rest : List Char}
    (h : tryMatchWs sfx name s = some (g1, g2, rest)) :
    ∃ tail, s = g1 ++ name ++ tail ∧ sfx tail = some (g2, rest) := by
  cases s with
  | nil => simp [tryMatchWs] at h
  | cons c s1 =>
    rw [tryMatchWs] at h
    split at h
    · split at h
      next s2 hdp =>
        split at h
        next g2' rest' hsfx =>
          simp only [Option.some.injEq, Prod.mk.injEq] at h
          obtain ⟨h1, h2, h3⟩ := h
          refine ⟨s2, ?_, ?_⟩
          · rw [← h1, dropPrefixCL_eq_append hdp]; simp
          · rw [hsfx, h2, h3]
        next => simp at h
      next => simp at h
    · simp at h

theorem tryMatchAt_some {sfx : List Char → Option (List Char × List Char)}
    {name : List Char} {b : Bool} {s g1 g2 rest : List Char}
    (h : tryMatchAt sfx name b s = some (g1, g2, rest)) :
    ∃ tail, s = g1 ++ name ++ tail ∧ sfx tail = some (g2, rest) := by
  cases b with
  | false => exact tryMatchWs_some h
  | true =>
    rw [tryMatchAt] at h
    simp only [if_true] at h
    split at h
    next s2 hdp =>
      split at h
      next g2' rest' hsfx =>
        simp only [Option.some.injEq, Prod.mk.injEq] at h
        obtain ⟨h1, h2, h3⟩ := h
        refine ⟨s2, ?_, ?_⟩
        · rw [← h1, dropPrefixCL_eq_append hdp]; simp
        · rw [hsfx, h2, h3]
      next => exact tryMatchWs_some h
    next => exact tryMatchWs_some h

theorem reSubAux_eq_self {sfx : List Char → Option (List Char × List Char)}
    {name repl : List Char} :
    ∀ (s : List Char), (∀ u tail, s = u ++ name ++ tail → sfx tail = none) →
      ∀ fuel b, reSubAux sfx name repl fuel b s = s := by
  intro s
  induction s with
  | nil =>
    intro hno fuel b
    cases fuel with
    | zero => rfl
    | succ f =>
      cases htm : tryMatchAt sfx name b [] with
      | none => simp [reSubAux, htm]
      | some v =>
        obtain ⟨g1, g2, rest⟩ := v
        obtain ⟨tail, heq, hsfx⟩ := tryMatchAt_some htm
        rw [hno g1 tail heq] at hsfx
        exact absurd hsfx (by simp)
  | cons c s' ih =>
    intro hno fuel b
    cases fuel with
    | zero => rfl
    | succ f =>
      cases htm : tryMatchAt sfx name b (c :: s') with
      | some v =>
        obtain ⟨g1, g2, rest⟩ := v
        obtain ⟨tail, heq, hsfx⟩ := tryMatchAt_some htm
        rw [hno g1 tail heq] at hsfx
        exact absurd hsfx (by simp)
      | none =>
        have hrec := ih (fun u tail h => hno (c :: u) tail (by simp [h])) f false
        simp [reSubAux, htm, hrec]

theorem occursCL_false {pat : List Char} :
    ∀ {s : List Char}, occursCL pat s = false →
      ∀ u tail, s ≠ u ++ pat ++ tail := by
  intro s
  induction s with
  | nil =>
    intro h u tail heq
    have hs : u ++ pat ++ tail = [] := heq.symm
    simp only [List.append_eq_nil] at hs
    rw [hs.1.2] at h
    simp [occursCL, dropPrefixCL] at h
  | cons c rest ih =>
    intro h u tail heq
    rw [occursCL, Bool.or_eq_false_iff] at h
    obtain ⟨h1, h2⟩ := h
    cases u with
    | nil =>
      simp only [List.nil_append] at heq
      rw [heq, dropPrefixCL_append] at h1
      simp at h1
    | cons c' u' =>
      simp only [List.cons_append, List.cons.injEq] at heq
      exact ih h2 u' tail heq.2

theorem occAllFollowedBy_spec {name : List Char} {c0 : Char} (hname : name ≠ []) :
    ∀ {s : List Char}, occAllFollowedBy name c0 s = true →
      ∀ u tail, s = u ++ name ++ tail → ∃ w, tail = c0 :: w := by
  intro s
  induction s with
  | nil =>
    intro _ u tail heq
    exfalso
    have hs : u ++ name ++ tail = [] := heq.symm
    simp only [List.append_eq_nil] at hs
    exact hname hs.1.2
  | cons c rest ih =>
    intro h u tail heq
    rw [occAllFollowedBy, Bool.and_eq_true] at h
    obtain ⟨h1, h2⟩ := h
    cases u with
    | nil =>
      simp only [List.nil_append] at heq
      rw [heq, dropPrefixCL_append] at h1
      cases tail with
      | nil => simp at h1
      | cons d w =>
        simp only [decide_eq_true_eq] at h1
        exact ⟨w, by rw [h1]⟩
    | cons c' u' =>
      simp only [List.cons_append, List.cons.injEq] at heq
      exact ih h2 u' tail heq.2

theorem sfxWord_at_zero (w : List Char) : sfxWord ('0' :: w) = none := by
  simp [sfxWord]

theorem sfxTeam_at_zero (w : List Char) : sfxTeam ('0' :: w) = none := by
  simp [sfxTeam]

theorem lookup_eq_of_mem_nodup {α : Type _} {l : List (String × α)} {k : String} {v : α}
    (hnd : (l.map Prod.fst).Nodup) (hmem : (k, v) ∈ l) :
    List.lookup k l = some v := by
  induction l with
  | nil => simp at hmem
  | cons hd tl ih =>
    obtain ⟨k', v'⟩ := hd
    rw [List.map_cons, List.nodup_cons] at hnd
    rcases List.mem_cons.mp hmem with heq | htl
    · rw [Prod.mk.injEq] at heq
      obtain ⟨hk, hv⟩ := heq
      subst hk; subst hv
      simp [List.lookup]
    · have hkin : k ∈ List.map Prod.fst tl := List.mem_map.mpr ⟨(k, v), htl, rfl⟩
      have hkne : k ≠ k' := by
        intro hkk
        exact hnd.1 (hkk ▸ hkin)
      have hbeq : (k == k') = false := beq_eq_false_iff_ne.mpr hkne
      rw [List.lookup, hbeq]
      exact ih hnd.2 htl

theorem findAliasLoop_notmem {pd : List (String × PyDict)} {k : String} :
    k ∉ pd.map Prod.fst → ∀ acc, findAliasLoop pd k acc = .ok acc := by
  induction pd with
  | nil => intro _ acc; rfl
  | cons hd tl ih =>
    obtain ⟨pn, r⟩ := hd
    intro h acc
    rw [List.map_cons, List.mem_cons] at h
    push_neg at h
    rw [findAliasLoop, if_neg h.1]
    exact ih h.2 acc

theorem findAliasLoop_eq {pd : List (String × PyDict)} {k : String} {r : PyDict} {a : String}
    (hnd : (pd.map Prod.fst).Nodup) (hmem : (k, r) ∈ pd)
    (ha : r.lookup "alias" = some a) :
    ∀ acc, findAliasLoop pd k acc = .ok a := by
  induction pd with
  | nil => simp at hmem
  | cons hd tl ih =>
    obtain ⟨pn, r'⟩ := hd
    rw [List.map_cons, List.nodup_cons] at hnd
    intro acc
    rcases List.mem_cons.mp hmem with heq | htl
    · rw [Prod.mk.injEq] at heq
      obtain ⟨hk, hr⟩ := heq
      subst hk; subst hr
      rw [findAliasLoop, if_pos rfl]
      simp only [dictGet, ha]
      exact findAliasLoop_notmem hnd.1 a
    · have hkin : k ∈ List.map Prod.fst tl := List.mem_map.mpr ⟨(k, r), htl, rfl⟩
      have hkne : k ≠ pn := by
        intro hkk
        exact hnd.1 (hkk ▸ hkin)
      rw [findAliasLoop, if_neg hkne]
      exact ih hnd.2 htl acc

theorem aliasScan_eq {pd : List (String × PyDict)} {c : String} {r : PyDict} {a : String}
    (hall : ∀ pr ∈ pd, (pr.2.lookup "alias").isSome = true)
    (hand : (pd.filterMap (fun pr => pr.2.lookup "alias")).Nodup)
    (hmem : (c, r) ∈ pd) (ha : r.lookup "alias" = some a) :
    aliasScan pd a = .ok (some c) := by
  induction pd with
  | nil => simp at hmem
  | cons hd tl ih =>
    obtain ⟨pn, r'⟩ := hd
    have hhd := hall (pn, r') (List.mem_cons_self _ _)
    obtain ⟨a0, ha0⟩ := Option.isSome_iff_exists.mp hhd
    simp only at ha0
    rw [List.filterMap_cons, ha0, List.nodup_cons] at hand
    rcases List.mem_cons.mp hmem with heq | htl
    · rw [Prod.mk.injEq] at heq
      obtain ⟨hk, hr⟩ := heq
      subst hk; subst hr
      rw [ha] at ha0
      have haa0 : a = a0 := by injection ha0
      subst haa0
      simp [aliasScan, dictGet, ha]
    · have hmem2 : a ∈ tl.filterMap (fun pr => pr.2.lookup "alias") :=
        List.mem_filterMap.mpr ⟨(c, r), htl, ha⟩
      have hane : a ≠ a0 := by
        intro haa
        exact hand.1 (haa ▸ hmem2)
      simp only [aliasScan, dictGet, ha0]
      rw [if_neg hane]
      exact ih (fun pr hpr => hall pr (List.mem_cons_of_mem _ hpr)) hand.2 htl

theorem print_output_positional {pd : List (String × PyDict)} {amax idx : Nat}
    {line t nm a : String} {r : PyDict}
    (hnd : (pd.map Prod.fst).Nodup) (hmem : (nm, r) ∈ pd)
    (ha : r.lookup "alias" = some a) (hane : a ≠ "")
    (hstart : pyStartsWith line "---" = false)
    (hget : (pySplit line).get? idx = some t)
    (hstrip : stripColons t = nm) :
    print_output_in_alias_mode pd amax line idx =
      .ok (pyRstripNl (strReplaceFirst line nm
        (if a.length < amax then pyRjust a amax ' ' else a))) := by
  have hwne : ¬ (pySplit line = []) := by
    intro h0
    rw [h0] at hget
    simp at hget
  have hfal := findAliasLoop_eq hnd hmem ha ""
  rw [print_output_in_alias_mode, hstart]
  simp only [Bool.false_eq_true, if_false, pyGetIdx, hget, if_neg hwne, hstrip, hfal]
  rw [if_pos hane]

theorem compute_alias_max_acc (pd : List (String × PyDict)) :
    ∀ acc, compute_alias_max_length pd acc =
      ((pd.takeWhile (fun pr => (pr.2.lookup "alias").isSome)).filterMap
        (fun pr => pr.2.lookup "alias")).foldl (fun m a => max m a.length) acc := by
  induction pd with
  | nil => intro acc; rfl
  | cons hd tl ih =>
    intro acc
    obtain ⟨pn, r⟩ := hd
    cases hl : r.lookup "alias" with
    | none =>
      rw [compute_alias_max_length]
      simp only [hl]
      rw [List.takeWhile_cons]
      simp [hl]
    | some a =>
      rw [compute_alias_max_length]
      simp only [hl]
      rw [List.takeWhile_cons]
      simp only [hl, Option.isSome_some, if_true]
      rw [List.filterMap_cons]
      simp only [hl]
      rw [List.foldl_cons, ih]
      congr 1
      rcases Nat.lt_or_ge acc a.length with hlt | hge
      · rw [if_pos hlt, Nat.max_eq_right (Nat.le_of_lt hlt)]
      · rw [if_neg (Nat.not_lt.mpr hge), Nat.max_eq_left hge]

theorem splitAtDot_reassemble {s : String} {p v : List Char}
    (h : splitAtDot s.data = some (p, v)) :
    (⟨p⟩ : String) ++ "." ++ (⟨v⟩ : String) = s := by
  apply strData_inj
  rw [strData_append, strData_append]
  have hdot : (".").data = ['.'] := rfl
  show p ++ (".").data ++ v = s.data
  rw [hdot, splitAtDot_eq_append h]
  simp

theorem mem_of_lookup_eq_some {α : Type _} {l : List (String × α)} {k : String} {v : α}
    (h : List.lookup k l = some v) : (k, v) ∈ l := by
  induction l with
  | nil => simp [List.lookup] at h
  | cons hd tl ih =>
    obtain ⟨k', v'⟩ := hd
    rw [List.lookup] at h
    cases hbeq : k == k' with
    | true =>
      rw [hbeq] at h
      injection h with hv
      have hk : k = k' := beq_iff_eq.mp hbeq
      rw [hk, hv]
      exact List.mem_cons_self _ _
    | false =>
      rw [hbeq] at h
      exact List.mem_cons_of_mem _ (ih h)

/-!
## Claim theorems
-/

/-- C1: the claim says `get_bgp_neighbor_ip_to_name` never raises and
falls back to `"NotAvailable"`.  In the code the `is_ipv4_address` helper
always raises `AttributeError` for string input (its parameter shadows
the `ipaddress` module), so the resolver raises for every IP without an
exact static match; the static path itself still works.  Evaluated at
the failing input `ip = "10.0.0.1"` with empty registries. -/
theorem c1_resolver_raises_attribute_error :
    get_bgp_neighbor_ip_to_name "10.0.0.1" [] ⟨[], []⟩ =
      .error .attributeError ∧
    get_bgp_neighbor_ip_to_name "10.0.0.1" [("10.0.0.1", "leaf1")] ⟨[], []⟩ =
      .ok (some "leaf1") :=
  ⟨rfl, rfl⟩

/-- C2 counterexample: `name_to_alias` does raise when the looked-up
record lacks an `alias` field, so the claim's "never raises ... including
directories containing records that lack an alias field" is false as
stated: with the one-record directory `Ethernet0 ↦ {}` the lookup of
`"Ethernet0"` raises `KeyError`. -/
theorem c2_name_to_alias_raises_counterexample :
    name_to_alias [("Ethernet0", [])] (some "Ethernet0") = .error .keyError :=
  rfl

/-- C2 amended: over a directory whose records all carry an `alias`
field, `name_to_alias` never raises; it returns the input unchanged
(including any sub-interface suffix) when the split prefix matches no
canonical name, and substitutes the matched record's alias (re-appending
the suffix) when it does. -/
theorem c2_name_to_alias_total_amended (port_dict : List (String × PyDict))
    (hall : ∀ pr ∈ port_dict, (pr.2.lookup "alias").isSome = true)
    (inp : Option String) :
    (∃ res : Option String, name_to_alias port_dict inp = .ok res) ∧
    (∀ s, inp = some s → splitAtDot s.data = none →
      List.lookup s port_dict = none →
      name_to_alias port_dict inp = .ok (some s)) ∧
    (∀ s p v, inp = some s → splitAtDot s.data = some (p, v) →
      List.lookup (⟨p⟩ : String) port_dict = none →
      name_to_alias port_dict inp = .ok (some s)) ∧
    (∀ s r a, inp = some s → splitAtDot s.data = none →
      List.lookup s port_dict = some r → r.lookup "alias" = some a →
      name_to_alias port_dict inp = .ok (some a)) ∧
    (∀ s p v r a, inp = some s → splitAtDot s.data = some (p, v) →
      List.lookup (⟨p⟩ : String) port_dict = some r → r.lookup "alias" = some a →
      name_to_alias port_dict inp = .ok (some (a ++ "." ++ (⟨v⟩ : String)))) := by
  refine ⟨?_, ?_, ?_, ?_, ?_⟩
  · cases inp with
    | none => exact ⟨none, rfl⟩
    | some s =>
      cases hsp : splitAtDot s.data with
      | none =>
        cases hlk : List.lookup s port_dict with
        | none => exact ⟨some s, by simp only [name_to_alias, hsp, hlk]⟩
        | some r =>
          have hmem := mem_of_lookup_eq_some hlk
          obtain ⟨a, ha⟩ := Option.isSome_iff_exists.mp (hall (s, r) hmem)
          exact ⟨some a, by simp only [name_to_alias, hsp, hlk, dictGet, ha]⟩
      | some pv =>
        obtain ⟨p, v⟩ := pv
        cases hlk : List.lookup (⟨p⟩ : String) port_dict with
        | none =>
          exact ⟨some ((⟨p⟩ : String) ++ "." ++ (⟨v⟩ : String)), by
            simp only [name_to_alias, hsp, hlk]⟩
        | some r =>
          have hmem := mem_of_lookup_eq_some hlk
          obtain ⟨a, ha⟩ := Option.isSome_iff_exists.mp (hall ((⟨p⟩ : String), r) hmem)
          exact ⟨some (a ++ "." ++ (⟨v⟩ : String)), by
            simp only [name_to_alias, hsp, hlk, dictGet, ha]⟩
  · intro s hs hsp hlk
    subst hs
    simp only [name_to_alias, hsp, hlk]
  · intro s p v hs hsp hlk
    subst hs
    simp only [name_to_alias, hsp, hlk]
    rw [splitAtDot_reassemble hsp]
  · intro s r a hs hsp hlk ha
    subst hs
    simp only [name_to_alias, hsp, hlk, dictGet, ha]
  · intro s p v r a hs hsp hlk ha
    subst hs
    simp only [name_to_alias, hsp, hlk, dictGet, ha]

/-- C2 witness: the amended theorem applied at a concrete directory and a
sub-interface input. -/
theorem c2_name_to_alias_total_amended_witness :
    name_to_alias [("Ethernet0", [("alias", "etp1")])] (some "Ethernet0.100") =
      .ok (some "etp1.100") :=
  (c2_name_to_alias_total_amended [("Ethernet0", [("alias", "etp1")])]
      (by decide) (some "Ethernet0.100")).2.2.2.2 "Ethernet0.100" "Ethernet0".data
    "100".data [("alias", "etp1")] "etp1" rfl rfl rfl rfl

/-- C5 counterexample: the single record `Ethernet0 ↦ alias "etp.5"`
satisfies the claim's hypotheses (the alias collides with no canonical
name, aliases are trivially pairwise distinct), yet the round trip
fails: the alias contains the sub-interface separator, so
`alias_to_name` splits it and returns it unchanged instead of
`"Ethernet0"`. -/
theorem c5_round_trip_counterexample :
    name_to_alias [("Ethernet0", [("alias", "etp.5")])] (some "Ethernet0") =
      .ok (some "etp.5") ∧
    alias_to_name [("Ethernet0", [("alias", "etp.5")])] (some "etp.5") =
      .ok (some "etp.5") ∧
    "etp.5" ≠ "Ethernet0" :=
  ⟨rfl, rfl, by decide⟩

/-- C5 amended: for every record `(c, a)` of a loaded directory, under
the claim's hypotheses (no alias collides with a canonical name, aliases
pairwise distinct) plus what the counterexample forces — records all
carry an alias field and neither `c` nor `a` contains the sub-interface
separator — the two conversions invert each other:
`name_to_alias c = a` and `alias_to_name a = c`, hence both round trips
compose to the identity. -/
theorem c5_round_trip_amended (port_dict : List (String × PyDict))
    (c a : String) (r : PyDict)
    (hnd : (port_dict.map Prod.fst).Nodup)
    (hall : ∀ pr ∈ port_dict, (pr.2.lookup "alias").isSome = true)
    (hadist : (port_dict.filterMap (fun pr => pr.2.lookup "alias")).Nodup)
    (hnocol : ∀ pr ∈ port_dict, ∀ pr2 ∈ port_dict, pr.2.lookup "alias" ≠ some pr2.1)
    (hmem : (c, r) ∈ port_dict) (ha : r.lookup "alias" = some a)
    (hcdot : splitAtDot c.data = none) (hadot : splitAtDot a.data = none) :
    name_to_alias port_dict (some c) = .ok (some a) ∧
    alias_to_name port_dict (some a) = .ok (some c) := by
  constructor
  · have hlk : List.lookup c port_dict = some r := lookup_eq_of_mem_nodup hnd hmem
    simp only [name_to_alias, hcdot, hlk, dictGet, ha]
  · have hscan : aliasScan port_dict a = .ok (some c) := aliasScan_eq hall hadist hmem ha
    simp only [alias_to_name, hadot, hscan]

/-- C5 witness: the amended round trip at a concrete one-record
directory. -/
theorem c5_round_trip_amended_witness :
    name_to_alias [("Ethernet0", [("alias", "etp1")])] (some "Ethernet0") =
      .ok (some "etp1") ∧
    alias_to_name [("Ethernet0", [("alias", "etp1")])] (some "etp1") =
      .ok (some "Ethernet0") :=
  c5_round_trip_amended [("Ethernet0", [("alias", "etp1")])] "Ethernet0" "etp1"
    [("alias", "etp1")] (by decide) (by decide) (by decide) (by decide)
    (by decide) (by decide) (by decide) (by decide)

/-- C7 counterexample: with a record lacking an `alias` field ahead of
one whose alias has length 6, the constructor's loop `break`s at the
first record and computes 0, while the claim's "maximum over all records
that have an alias field" is 6. -/
theorem c7_alias_width_counterexample :
    compute_alias_max_length [("P1", []), ("P2", [("alias", "abcdef")])] 0 = 0 ∧
    spec_alias_max [("P1", []), ("P2", [("alias", "abcdef")])] = 6 ∧
    (0 : Nat) ≠ 6 :=
  ⟨rfl, rfl, by decide⟩

/-- C7 amended: `alias_max_length` equals the spec's maximum alias
length taken over the longest prefix of the table's iteration order in
which every record carries an `alias` field — a record lacking the field
stops the scan, so later aliases are not counted. -/
theorem c7_alias_width_amended (port_dict : List (String × PyDict)) :
    compute_alias_max_length port_dict 0 =
      spec_alias_max (port_dict.takeWhile (fun pr => (pr.2.lookup "alias").isSome)) := by
  unfold spec_alias_max
  exact compute_alias_max_acc port_dict 0

/-- C8 counterexample: with `SONIC_CLI_IFACE_MODE` set to `"foo"`,
`get_interface_mode` returns `"foo"` — not `"default"` as the claim
states for every non-`"alias"` value. -/
theorem c8_mode_counterexample :
    get_interface_mode (some "foo") = "foo" ∧ "foo" ≠ "default" :=
  ⟨rfl, by decide⟩

/-- C8 amended: `get_interface_mode` returns `"default"` only when the
variable is unset; a set variable is returned verbatim, so the result is
`"alias"` exactly when the value is the string `"alias"`. -/
theorem c8_mode_amended :
    get_interface_mode none = "default" ∧
    get_interface_mode (some "alias") = "alias" ∧
    (∀ v, get_interface_mode (some v) = v) :=
  ⟨rfl, rfl, fun _ => rfl⟩

/-- C9: a `None` input makes both codec functions skip the directory
scan and return `None` unchanged, for every directory. -/
theorem c9_none_passthrough (port_dict : List (String × PyDict)) :
    name_to_alias port_dict none = .ok none ∧
    alias_to_name port_dict none = .ok none :=
  ⟨rfl, rfl⟩

/-- C10: building the static neighbor map from a table, a record lacking
a `name` field is still entered — keyed by its IP with the value
`"NotAvailable"` — and no record is skipped (the result has one entry
per table record). -/
theorem c10_missing_name_not_available (table : List (String × PyDict))
    (k : String) (r : PyDict)
    (hnd : (table.map Prod.fst).Nodup) (hmem : (k, r) ∈ table)
    (hname : r.lookup "name" = none) :
    List.lookup k (get_neighbor_dict_from_table table) = some "NotAvailable" ∧
    (get_neighbor_dict_from_table table).length = table.length := by
  constructor
  · apply lookup_eq_of_mem_nodup
    · have hkeys : (get_neighbor_dict_from_table table).map Prod.fst =
          table.map Prod.fst := by
        rw [get_neighbor_dict_from_table, List.map_map]
        rfl
      rw [hkeys]
      exact hnd
    · rw [get_neighbor_dict_from_table]
      refine List.mem_map.mpr ⟨(k, r), hmem, ?_⟩
      simp [hname]
  · rw [get_neighbor_dict_from_table, List.length_map]

/-- C10 witness: a concrete one-record table without a `name` field. -/
theorem c10_missing_name_not_available_witness :
    List.lookup "10.0.0.1"
        (get_neighbor_dict_from_table [("10.0.0.1", [("asn", "65100")])]) =
      some "NotAvailable" ∧
    (get_neighbor_dict_from_table [("10.0.0.1", [("asn", "65100")])]).length = 1 :=
  c10_missing_name_not_available [("10.0.0.1", [("asn", "65100")])] "10.0.0.1"
    [("asn", "65100")] (by decide) (by decide) (by decide)

/-- C6: the claim's concrete team-summary example does rewrite as stated
(first conjunct), but the claim's general sentence — substitution also
when a name is followed directly by end-of-line/whitespace — is what the
code's own comment promises and the regex does not deliver: the pattern
demands a parenthesized status marker, so `"PortChannel1  Ethernet4"`
passes through unchanged (second conjunct) instead of becoming
`"PortChannel1  etp5"`. -/
theorem c6_team_status_anchoring :
    teamshow_convert_line
        [("Ethernet4", [("alias", "etp5")]), ("Ethernet5", [("alias", "etp6")])]
        "PortChannel1  Ethernet4(S)  Ethernet5(D*)" =
      .ok "PortChannel1  etp5(S)  etp6(D*)" ∧
    teamshow_convert_line
        [("Ethernet4", [("alias", "etp5")]), ("Ethernet5", [("alias", "etp6")])]
        "PortChannel1  Ethernet4" =
      .ok "PortChannel1  Ethernet4" :=
  ⟨rfl, rfl⟩

/-- C4: in alias mode (non-`intfutil` command), whenever the wrapped
subprocess terminates with a non-zero code the invocation's exit code is
exactly that code, whatever lines were emitted and rewritten before
termination. -/
theorem c4_exit_code_propagation (env : Option String)
    (port_dict : List (String × PyDict)) (alias_max_length : Nat)
    (command : String) (p : Subproc) (outs : List String) (ex : Option Int)
    (hmode : get_interface_mode env = "alias")
    (hintf : pyStartsWith command "intfutil" = false)
    (hrc : p.exit_code ≠ 0)
    (hrun : run_command env port_dict alias_max_length command p = .ok (outs, ex)) :
    ex = some p.exit_code := by
  rw [run_command, if_pos ⟨hmode, hintf⟩, run_command_in_alias_mode] at hrun
  cases hm : (p.lines.filter (fun l => l ≠ "")).mapM
      (process_line port_dict alias_max_length command) with
  | error e => rw [hm] at hrun; simp at hrun
  | ok outs2 =>
    rw [hm, if_pos hrc] at hrun
    simp at hrun
    exact hrun.2.symm

/-- C4 witness: a subprocess emitting one line and exiting 2 makes the
alias-mode invocation exit 2. -/
theorem c4_exit_code_propagation_witness :
    run_command (some "alias") [] 0 "ls" ⟨["hello\n"], 2⟩ =
      .ok (["hello"], some 2) ∧
    (some (2 : Int)) = some ((⟨["hello\n"], 2⟩ : Subproc).exit_code) :=
  ⟨rfl,
    c4_exit_code_propagation (some "alias") [] 0 "ls" ⟨["hello\n"], 2⟩ ["hello"]
      (some 2) rfl rfl (by decide) rfl⟩

/-- C3: Ethernet1/Ethernet10 never collide under any strategy.  For the
whole-line REGEX strategies (default word pattern and teamshow pattern),
the Ethernet1 pass is the identity on any line in which every occurrence
of `Ethernet1` is immediately followed by `0` (i.e. the line carries
only the token `Ethernet10`), and the Ethernet10 pass is the identity on
any line without an `Ethernet10` occurrence — the trailing-boundary
anchoring refuses the partial match.  For the POSITIONAL strategy, with
both names present in the directory, a line whose field token is
`Ethernet10` is rewritten exactly by replacing the first occurrence of
the full name `Ethernet10` (never a substring match for `Ethernet1`),
and symmetrically a line whose token is `Ethernet1` (and which contains
no `Ethernet10`) is rewritten exactly by replacing `Ethernet1`. -/
theorem c3_no_partial_name_collision :
    (∀ (al line : String), occAllFollowedBy "Ethernet1".data '0' line.data = true →
      reSubWordStr "Ethernet1" al line = line) ∧
    (∀ (al line : String), occursCL "Ethernet10".data line.data = false →
      reSubWordStr "Ethernet10" al line = line) ∧
    (∀ (al line : String), occAllFollowedBy "Ethernet1".data '0' line.data = true →
      reSubTeamStr "Ethernet1" al line = line) ∧
    (∀ (al line : String), occursCL "Ethernet10".data line.data = false →
      reSubTeamStr "Ethernet10" al line = line) ∧
    (∀ (pd : List (String × PyDict)) (amax idx : Nat) (line t a10 : String)
        (r1 r10 : PyDict),
      (pd.map Prod.fst).Nodup → ("Ethernet1", r1) ∈ pd → ("Ethernet10", r10) ∈ pd →
      r10.lookup "alias" = some a10 → a10 ≠ "" →
      pyStartsWith line "---" = false →
      (pySplit line).get? idx = some t → stripColons t = "Ethernet10" →
      print_output_in_alias_mode pd amax line idx =
        .ok (pyRstripNl (strReplaceFirst line "Ethernet10"
          (if a10.length < amax then pyRjust a10 amax ' ' else a10)))) ∧
    (∀ (pd : List (String × PyDict)) (amax idx : Nat) (line t a1 : String)
        (r1 r10 : PyDict),
      (pd.map Prod.fst).Nodup → ("Ethernet1", r1) ∈ pd → ("Ethernet10", r10) ∈ pd →
      r1.lookup "alias" = some a1 → a1 ≠ "" →
      occursCL "Ethernet10".data line.data = false →
      pyStartsWith line "---" = false →
      (pySplit line).get? idx = some t → stripColons t = "Ethernet1" →
      print_output_in_alias_mode pd amax line idx =
        .ok (pyRstripNl (strReplaceFirst line "Ethernet1"
          (if a1.length < amax then pyRjust a1 amax ' ' else a1)))) := by
  refine ⟨?_, ?_, ?_, ?_, ?_, ?_⟩
  · intro al line h
    apply strData_inj
    show reSubAux sfxWord "Ethernet1".data al.data (line.data.length + 1) true
        line.data = line.data
    apply reSubAux_eq_self
    intro u tail heq
    obtain ⟨w, hw⟩ := occAllFollowedBy_spec (by decide) h u tail heq
    rw [hw]
    exact sfxWord_at_zero w
  · intro al line h
    apply strData_inj
    show reSubAux sfxWord "Ethernet10".data al.data (line.data.length + 1) true
        line.data = line.data
    apply reSubAux_eq_self
    intro u tail heq
    exact absurd heq (occursCL_false h u tail)
  · intro al line h
    apply strData_inj
    show reSubAux sfxTeam "Ethernet1".data al.data (line.data.length + 1) true
        line.data = line.data
    apply reSubAux_eq_self
    intro u tail heq
    obtain ⟨w, hw⟩ := occAllFollowedBy_spec (by decide) h u tail heq
    rw [hw]
    exact sfxTeam_at_zero w
  · intro al line h
    apply strData_inj
    show reSubAux sfxTeam "Ethernet10".data al.data (line.data.length + 1) true
        line.data = line.data
    apply reSubAux_eq_self
    intro u tail heq
    exact absurd heq (occursCL_false h u tail)
  · intro pd amax idx line t a10 r1 r10 hnd _ hmem ha hane hstart hget hstrip
    exact print_output_positional hnd hmem ha hane hstart hget hstrip
  · intro pd amax idx line t a1 r1 r10 hnd hmem _ ha hane _ hstart hget hstrip
    exact print_output_positional hnd hmem ha hane hstart hget hstrip

/-- C3 witness: each part of the collision theorem applied at concrete
lines and a concrete two-port directory. -/
theorem c3_no_partial_name_collision_witness :
    reSubWordStr "Ethernet1" "etp1" "PortChannel0 Ethernet10 up" =
      "PortChannel0 Ethernet10 up" ∧
    reSubWordStr "Ethernet10" "etp10" "PortChannel0 Ethernet1 up" =
      "PortChannel0 Ethernet1 up" ∧
    reSubTeamStr "Ethernet1" "etp1" "PortChannel0 Ethernet10(S) x" =
      "PortChannel0 Ethernet10(S) x" ∧
    reSubTeamStr "Ethernet10" "etp10" "PortChannel0 Ethernet1(S) x" =
      "PortChannel0 Ethernet1(S) x" ∧
    print_output_in_alias_mode
        [("Ethernet1", [("alias", "etp1")]), ("Ethernet10", [("alias", "etp10")])]
        0 "Ethernet10 up" 0 = .ok "etp10 up" ∧
    print_output_in_alias_mode
        [("Ethernet1", [("alias", "etp1")]), ("Ethernet10", [("alias", "etp10")])]
        0 "Ethernet1 up" 0 = .ok "etp1 up" := by
  refine ⟨?_, ?_, ?_, ?_, ?_, ?_⟩
  · exact c3_no_partial_name_collision.1 "etp1" "PortChannel0 Ethernet10 up" (by decide)
  · exact c3_no_partial_name_collision.2.1 "etp10" "PortChannel0 Ethernet1 up" (by decide)
  · exact c3_no_partial_name_collision.2.2.1 "etp1" "PortChannel0 Ethernet10(S) x"
      (by decide)
  · exact c3_no_partial_name_collision.2.2.2.1 "etp10" "PortChannel0 Ethernet1(S) x"
      (by decide)
  · exact c3_no_partial_name_collision.2.2.2.2.1
      [("Ethernet1", [("alias", "etp1")]), ("Ethernet10", [("alias", "etp10")])]
      0 0 "Ethernet10 up" "Ethernet10" "etp10" [("alias", "etp1")]
      [("alias", "etp10")] (by decide) (by decide) (by decide) rfl (by decide)
      rfl rfl rfl
  · exact c3_no_partial_name_collision.2.2.2.2.2
      [("Ethernet1", [("alias", "etp1")]), ("Ethernet10", [("alias", "etp10")])]
      0 0 "Ethernet1 up" "Ethernet1" "etp1" [("alias", "etp1")]
      [("alias", "etp10")] (by decide) (by decide) (by decide) rfl (by decide)
      (by decide) rfl rfl rfl
